import Mathlib

/-!
Verification development for the job-market aggregation service of the
Job-Search-TG repository.

The only server-side code in the repository is the market-analysis route
handler `src/app/api/market/analyze/route.ts`; it is embedded here directly.
The pipeline it calls (`JobScraper.analyzeJobMarket`, i.e. the
fetch-normalize-dedupe-aggregate pipeline) is not present in the repository
sources, so those components are modelled from the specification, as marked
on each definition.
-/

namespace JobSearch

/-- A JSON value as produced by `request.json()` (JavaScript `JSON.parse`).
`undefined` is not a JSON value and is represented by `Option.none` at use
sites. -/
inductive Json where
  | null : Json
  | bool (b : Bool) : Json
  | num (n : Int) : Json
  | str (s : String) : Json
  | arr (xs : List Json) : Json
  | obj (fields : List (String × Json)) : Json
deriving Repr

/-- JavaScript truthiness of a JSON value: `null`, `false`, `0` and the empty
string are falsy; every object and every array (including `[]`) is truthy. -/
def jsTruthy : Json → Bool
  | .null => false
  | .bool b => b
  | .num n => n != 0
  | .str s => s != ""
  | .arr _ => true
  | .obj _ => true

/-- Property access `body[k]` on a parsed JSON value that is not `null`:
on an object it is the value of the key (last occurrence wins, matching
`JSON.parse` duplicate-key semantics); on any other non-null value it is
`undefined`, modelled as `none`. -/
def fieldOpt : Json → String → Option Json
  | .obj fields, k => fields.foldl (fun acc kv => if kv.1 = k then some kv.2 else acc) none
  | _, _ => none

/-- The handler check `!keywords || !Array.isArray(keywords) || keywords.length === 0`:
it passes exactly when `keywords` is a non-empty JSON array (`none` models the
field being absent, i.e. `undefined`). -/
def kwInvalid : Option Json → Bool
  | some (.arr (_ :: _)) => false
  | _ => true

/-- The handler check `!location`: fails exactly when the field is absent or
falsy. -/
def locInvalid : Option Json → Bool
  | none => true
  | some j => !jsTruthy j

/-- The three response shapes the handler can produce:
`ok m` is `NextResponse.json({ success: true, data: m })` (HTTP 200),
`badRequest e` is `NextResponse.json({ error: e }, { status: 400 })`, and
`serverError e m` is `NextResponse.json({ error: e, message: m }, { status: 500 })`. -/
inductive ApiResponse (α : Type) where
  | ok (data : α) : ApiResponse α
  | badRequest (error : String) : ApiResponse α
  | serverError (error message : String) : ApiResponse α
deriving Repr, DecidableEq

/-- HTTP status code of a response. -/
def ApiResponse.status : ApiResponse α → Nat
  | .ok _ => 200
  | .badRequest _ => 400
  | .serverError _ _ => 500

/-- The `error` field of the catch-all 500 response in the handler. -/
def apiErrorText : String := "Failed to analyze job market"

/-- The 400 message for the keywords check in the handler. -/
def kwErrorText : String := "Keywords are required and must be an array"

/-- The 400 message for the location check in the handler. -/
def locErrorText : String := "Location is required"

/-- Runtime message of the `TypeError` raised by
`const { keywords, location } = body` when `body` is `null`; the exact text is
runtime-specific and no theorem depends on it. -/
def destructureNullMsg : String := "cannot destructure null request body"

/-- The POST handler of `src/app/api/market/analyze/route.ts`, embedded.

Inputs: `pipeline` stands for `new JobScraper().analyzeJobMarket` (an
`Except.error` models the promise rejecting, which the catch block turns into
a 500); `rawBody` is the outcome of `await request.json()` (`Except.error msg`
models a body that is not parseable as JSON, whose exception carries `msg`).

Output: the response together with `some (kw, loc)` when the pipeline was
invoked with arguments `kw`, `loc`, and `none` when it was never invoked. -/
def runPOST (pipeline : Json → Json → Except String α)
    (rawBody : Except String Json) : ApiResponse α × Option (Json × Json) :=
  match rawBody with
  | .error msg => (.serverError apiErrorText msg, none)
  | .ok Json.null => (.serverError apiErrorText destructureNullMsg, none)
  | .ok body =>
      let kw := fieldOpt body "keywords"
      let loc := fieldOpt body "location"
      if kwInvalid kw then
        (.badRequest kwErrorText, none)
      else if locInvalid loc then
        (.badRequest locErrorText, none)
      else
        let kwv := kw.getD Json.null
        let locv := loc.getD Json.null
        match pipeline kwv locv with
        | .ok m => (.ok m, some (kwv, locv))
        | .error e => (.serverError apiErrorText e, some (kwv, locv))

/-- The keywords value the handler passes to `analyzeJobMarket` after
validation (validation guarantees the field is present). -/
def kwArg (body : Json) : Json :=
  (fieldOpt body "keywords").getD Json.null

/-- The location value the handler passes to `analyzeJobMarket` after
validation. -/
def locArg (body : Json) : Json :=
  (fieldOpt body "location").getD Json.null

/-- The spec condition on `location`: missing or empty. -/
def locSpecBad : Option Json → Bool
  | none => true
  | some (.str s) => s.isEmpty
  | some _ => false

/-- A request body is malformed in the sense of the specification when
`keywords` is missing, empty, or not an array — which is exactly the set of
values `kwInvalid` rejects — or `location` is missing or empty. -/
def specMalformed (body : Json) : Bool :=
  kwInvalid (fieldOpt body "keywords") || locSpecBad (fieldOpt body "location")

/-- Whether a JSON value is `null`. -/
def Json.isNull : Json → Bool
  | .null => true
  | _ => false

/-! ## Pipeline data model

The `JobScraper` pipeline imported by the route handler is not part of the
repository sources, so the definitions below are modelled from the
specification (sections 3, 4.2-4.5 and 7), as noted on each one. Timestamps
are integers (epoch milliseconds). -/

/-- Modelled from the spec: the canonical `Posting` entity of section 3
(missing `JobScraper` pipeline). The stable id hash is modelled as a tagged
concatenation of title, company, location and source. -/
structure Posting where
  id : String
  title : String
  company : String
  location : String
  salaryMin : Option Int
  salaryMax : Option Int
  currency : Option String
  postedAt : Int
  sourceUrl : String
  sourceId : String
  skills : List String
deriving Repr, DecidableEq

/-- Modelled from the spec: a `RawPosting` as one adapter returns it
(missing `JobScraper` pipeline). Source-specific field names, salary strings
and date phrases of section 4.2 are represented after extraction: optional
text fields, optional numeric salary bounds and a resolved timestamp. -/
structure RawPosting where
  sourceId : String
  title : Option String
  company : Option String
  location : Option String
  salaryMin : Option Int
  salaryMax : Option Int
  currency : Option String
  postedAt : Int
  sourceUrl : String
  skills : List String
deriving Repr, DecidableEq

/-- Modelled from the spec: the `NormalizeError` taxonomy of section 4.2. -/
inductive NormalizeError where
  | missingRequiredField : NormalizeError
deriving Repr, DecidableEq

/-- Leading and trailing whitespace removal, defined structurally over the
character list so that concrete instances compute. -/
def trimChars (l : List Char) : List Char :=
  ((l.dropWhile Char.isWhitespace).reverse.dropWhile Char.isWhitespace).reverse

/-- Trim of a string, via `trimChars`. -/
def strTrim (s : String) : String :=
  String.mk (trimChars s.data)

/-- Modelled from the spec: `normalize` (section 4.2, missing `JobScraper`
pipeline). Fails only when title, company or location is absent or empty
after trimming; a raw salary range with `min > max` is corrected by swapping
the two bounds; `postedAt` is clamped to the run's captured `now` so it is
never in the future. -/
def normalize (now : Int) (raw : RawPosting) : Except NormalizeError Posting :=
  let t := strTrim (raw.title.getD "")
  let c := strTrim (raw.company.getD "")
  let l := strTrim (raw.location.getD "")
  if t = "" || c = "" || l = "" then
    .error .missingRequiredField
  else
    let bounds : Option Int × Option Int :=
      match raw.salaryMin, raw.salaryMax with
      | some a, some b => if b < a then (some b, some a) else (some a, some b)
      | a, b => (a, b)
    .ok { id := t ++ "|" ++ c ++ "|" ++ l ++ "|" ++ raw.sourceId
          title := t
          company := c
          location := l
          salaryMin := bounds.1
          salaryMax := bounds.2
          currency := raw.currency
          postedAt := if now < raw.postedAt then now else raw.postedAt
          sourceUrl := raw.sourceUrl
          sourceId := raw.sourceId
          skills := raw.skills }

/-! ## Deduplicator -/

/-- Collapse runs of spaces and drop leading/trailing spaces. -/
def collapseWs (s : String) : String :=
  String.intercalate " " ((s.splitOn " ").filter (fun w => w ≠ ""))

/-- Modelled from the spec: title/company normalisation for duplicate
matching (section 4.3): case-insensitive and whitespace-collapsed. -/
def matchKey (s : String) : String :=
  collapseWs s.toLower

/-- Modelled from the spec: location tokens for the superset-token rule of
section 4.3 (for example "Remote" matches "Remote - US"). -/
def locTokens (s : String) : List String :=
  (((s.toLower.splitOn "-").map (fun part => part.splitOn " ")).flatten).filter
    (fun w => w ≠ "")

/-- Modelled from the spec: two locations match when they are equal or the
tokens of one are a subset of the tokens of the other (section 4.3). -/
def locMatch (a b : String) : Bool :=
  (locTokens a).all (fun t => (locTokens b).contains t) ||
  (locTokens b).all (fun t => (locTokens a).contains t)

/-- Fourteen days in milliseconds, the posting-date window of section 4.3. -/
def dupWindowMs : Nat := 14 * 86400000

/-- Modelled from the spec: the duplicate-matching rule of section 4.3 —
normalised titles and companies equal, locations equal or token-superset
related, and posting dates within fourteen days of each other. -/
def isDup (a b : Posting) : Bool :=
  decide (matchKey a.title = matchKey b.title) &&
  decide (matchKey a.company = matchKey b.company) &&
  locMatch a.location b.location &&
  decide ((a.postedAt - b.postedAt).natAbs ≤ dupWindowMs)

/-- Completeness rank of a record for representative selection: both salary
bounds present ranks above one bound, which ranks above none (section 4.3). -/
def salaryRank (p : Posting) : Nat :=
  match p.salaryMin, p.salaryMax with
  | some _, some _ => 2
  | some _, none => 1
  | none, some _ => 1
  | none, none => 0

/-- Modelled from the spec: the total tie-break order for representative
selection (section 4.3): higher salary completeness first, then more recent
`postedAt`, then lexicographically smallest `sourceId`. -/
def betterRep (a b : Posting) : Bool :=
  decide (salaryRank b < salaryRank a) ||
  (decide (salaryRank a = salaryRank b) &&
    (decide (b.postedAt < a.postedAt) ||
      (decide (a.postedAt = b.postedAt) && decide (a.sourceId < b.sourceId))))

/-- Insert a posting into the group structure: all existing groups it is a
duplicate of some member of are merged with it into one group; the merged
group is placed last so the construction is deterministic. -/
def addPosting (gs : List (List Posting)) (p : Posting) : List (List Posting) :=
  gs.filter (fun g => !g.any (fun q => isDup p q)) ++
    [(gs.filter (fun g => g.any (fun q => isDup p q))).flatten ++ [p]]

/-- Modelled from the spec: the dedup groups (section 4.3) — the connected
components of the duplicate relation over the input sequence, built
incrementally. -/
def dedupGroups (ps : List Posting) : List (List Posting) :=
  ps.foldl addPosting []

/-- Representative of a group: the best member under `betterRep`, the first
such member when the order ties (section 4.3). -/
def chooseRep : List Posting → Option Posting
  | [] => none
  | p :: rest => some (rest.foldl (fun best q => if betterRep q best then q else best) p)

/-- Modelled from the spec: `dedupe` (section 4.3, missing `JobScraper`
pipeline) — one representative per dedup group. -/
def dedupe (ps : List Posting) : List Posting :=
  (dedupGroups ps).filterMap chooseRep

/-! ## Aggregator -/

/-- Modelled from the spec: the `salaryStats` record of section 3. Values are
rationals because percentiles interpolate linearly between sample points. -/
structure SalaryStats where
  min : Rat
  max : Rat
  median : Rat
  p25 : Rat
  p75 : Rat
deriving Repr, DecidableEq

/-- Modelled from the spec: one `sourceHealth` entry of section 3. -/
structure SourceHealth where
  succeeded : Bool
  postingCount : Nat
  errorKind : Option String
  latencyMs : Nat
deriving Repr, DecidableEq

/-- Modelled from the spec: the part of `MarketAnalysis` the Aggregator
produces (section 4.4 excludes `sourceHealth` and the posting counts, which
the Orchestrator fills in). -/
structure AggStats where
  salaryStats : Option SalaryStats
  topCompanies : List (String × Nat)
  topSkills : List (String × Nat)
deriving Repr, DecidableEq

/-- Modelled from the spec: the `MarketAnalysis` result of section 3. -/
structure MarketAnalysis where
  totalPostings : Nat
  uniquePostings : Nat
  salaryStats : Option SalaryStats
  topCompanies : List (String × Nat)
  topSkills : List (String × Nat)
  sourceHealth : List (String × SourceHealth)
deriving Repr, DecidableEq

/-- Modelled from the spec: the representative salary of a posting
(section 4.4): the midpoint of the two bounds, or the single bound present,
or nothing. -/
def repSalary (p : Posting) : Option Rat :=
  match p.salaryMin, p.salaryMax with
  | some a, some b => some (((a : Rat) + (b : Rat)) / 2)
  | some a, none => some (a : Rat)
  | none, some b => some (b : Rat)
  | none, none => none

/-- Insert into an ascending list of rationals, keeping it ascending. -/
def insertAsc (x : Rat) : List Rat → List Rat
  | [] => [x]
  | y :: ys => if x ≤ y then x :: y :: ys else y :: insertAsc x ys

/-- Ascending insertion sort of the salary sample. -/
def sortAsc (l : List Rat) : List Rat :=
  l.foldr insertAsc []

/-- Modelled from the spec: the linear-interpolation rank method for
percentiles (section 4.4) over a sorted non-empty sample; `q` ranges over
`[0, 1]`. -/
def interpolate (s : List Rat) (q : Rat) : Rat :=
  match s with
  | [] => 0
  | _ :: _ =>
    let n := s.length
    let rank : Rat := q * ((n : Rat) - 1)
    let lo : Nat := rank.floor.toNat
    let frac : Rat := rank - (lo : Rat)
    let a := s.getD lo 0
    let b := s.getD (Nat.min (lo + 1) (n - 1)) 0
    a + frac * (b - a)

/-- Keys of a list in first-seen order. -/
def firstSeen (l : List String) : List String :=
  l.foldl (fun acc s => if acc.contains s then acc else acc ++ [s]) []

/-- Insert into a count-descending list, after any entry of equal count
already present, so that sorting is stable. -/
def insertDesc (x : String × Nat) : List (String × Nat) → List (String × Nat)
  | [] => [x]
  | y :: ys => if y.2 ≤ x.2 then x :: y :: ys else y :: insertDesc x ys

/-- Stable descending sort by count. -/
def sortDesc (l : List (String × Nat)) : List (String × Nat) :=
  l.foldr insertDesc []

/-- Modelled from the spec: frequency count in count-descending order, ties
broken by first-seen order (section 4.4). -/
def topCount (l : List String) : List (String × Nat) :=
  sortDesc ((firstSeen l).map (fun k => (k, l.count k)))

/-- Modelled from the spec: `aggregate` (section 4.4, missing `JobScraper`
pipeline). An empty salary sample yields `none` statistics, not an error. -/
def aggregate (ps : List Posting) : AggStats :=
  let sample := ps.filterMap repSalary
  let sorted := sortAsc sample
  let stats : Option SalaryStats :=
    match sample with
    | [] => none
    | _ :: _ =>
      some { min := interpolate sorted 0
             max := interpolate sorted 1
             median := interpolate sorted (1 / 2)
             p25 := interpolate sorted (1 / 4)
             p75 := interpolate sorted (3 / 4) }
  { salaryStats := stats
    topCompanies := topCount (ps.map (fun p => p.company))
    topSkills := topCount ((ps.map (fun p => p.skills)).flatten) }

/-! ## Orchestrator -/

/-- Modelled from the spec: the final, post-retry outcome of one adapter
(sections 4.1, 4.5 and 7); retry and concurrency policy are resolved before
this point, so a run is a pure function of these outcomes. -/
inductive FetchOutcome where
  | succeeded (raws : List RawPosting) (latencyMs : Nat) : FetchOutcome
  | timedOut (latencyMs : Nat) : FetchOutcome
  | unavailable (latencyMs : Nat) : FetchOutcome
  | rateLimited (latencyMs : Nat) : FetchOutcome
  | unknownFailure (latencyMs : Nat) : FetchOutcome
deriving Repr, DecidableEq

/-- An outcome that produced no postings: any of the `FetchError` kinds. -/
def FetchOutcome.isFailure : FetchOutcome → Bool
  | .succeeded _ _ => false
  | _ => true

/-- Modelled from the spec: the `sourceHealth` entry recorded for one
adapter outcome (sections 3 and 7). -/
def outcomeHealth : FetchOutcome → SourceHealth
  | .succeeded rs ms =>
      { succeeded := true, postingCount := rs.length, errorKind := none, latencyMs := ms }
  | .timedOut ms =>
      { succeeded := false, postingCount := 0, errorKind := some "Timeout", latencyMs := ms }
  | .unavailable ms =>
      { succeeded := false, postingCount := 0, errorKind := some "Unavailable", latencyMs := ms }
  | .rateLimited ms =>
      { succeeded := false, postingCount := 0, errorKind := some "RateLimited", latencyMs := ms }
  | .unknownFailure ms =>
      { succeeded := false, postingCount := 0, errorKind := some "Unknown", latencyMs := ms }

/-- Raw postings contributed by one outcome: a failed source contributes
nothing (its failure is isolated, section 4.5). -/
def successRaws : FetchOutcome → List RawPosting
  | .succeeded rs _ => rs
  | _ => []

/-- Modelled from the spec: `normalize_all` — normalization applied to each
raw posting, dropping the items that fail (section 7). -/
def normalizeAll (now : Int) (raws : List RawPosting) : List Posting :=
  raws.filterMap (fun r => (normalize now r).toOption)

/-- Modelled from the spec: the Orchestrator pipeline after all adapter
outcomes are resolved (section 4.5): merge successful raw postings, then
normalize, dedupe and aggregate, and report per-source health. -/
def analyzeJobMarket (now : Int) (outcomes : List (String × FetchOutcome)) :
    MarketAnalysis :=
  let raws := (outcomes.map (fun so => successRaws so.2)).flatten
  let normed := normalizeAll now raws
  let unique := dedupe normed
  let core := aggregate unique
  { totalPostings := normed.length
    uniquePostings := unique.length
    salaryStats := core.salaryStats
    topCompanies := core.topCompanies
    topSkills := core.topSkills
    sourceHealth := outcomes.map (fun so => (so.1, outcomeHealth so.2)) }

/-- Modelled from the spec: a run against a wall clock. The clock is read
exactly once, at query start (instant `0`), and that captured timestamp is
what the pipeline uses throughout (sections 4.2 and 9). -/
def runWithClock (clock : Nat → Int) (outcomes : List (String × FetchOutcome)) :
    MarketAnalysis :=
  analyzeJobMarket (clock 0) outcomes

/-- The empty analysis, produced by a run over no sources. -/
def emptyAnalysis : MarketAnalysis :=
  analyzeJobMarket 0 []

/-- A pipeline stub that always completes without an exception. -/
def okPipeline : Json → Json → Except String MarketAnalysis :=
  fun _ _ => Except.ok emptyAnalysis

/-- A parsed body with neither field: `{}`. -/
def bodyEmptyObj : Json :=
  Json.obj []

/-- A parsed body that passes both validation checks. -/
def bodyValid : Json :=
  Json.obj [("keywords", Json.arr [Json.str "go"]), ("location", Json.str "NYC")]

/-- A parsed body whose keywords array is non-empty but contains only an
empty string. -/
def bodyEdgeKw : Json :=
  Json.obj [("keywords", Json.arr [Json.str ""]), ("location", Json.str "NYC")]

/-- A raw posting whose salary bounds are reversed (`min > max`). -/
def rawSwapSample : RawPosting :=
  { sourceId := "s"
    title := some " T "
    company := some "C"
    location := some "L"
    salaryMin := some 9
    salaryMax := some 3
    currency := none
    postedAt := 200
    sourceUrl := "u"
    skills := [] }

/-- The posting `normalize 100 rawSwapSample` produces: bounds swapped,
fields trimmed, date clamped to the captured now. -/
def postSwapSample : Posting :=
  { id := "T|C|L|s"
    title := "T"
    company := "C"
    location := "L"
    salaryMin := some 3
    salaryMax := some 9
    currency := none
    postedAt := 100
    sourceUrl := "u"
    sourceId := "s"
    skills := [] }

/-- A run in which every source fails. -/
def downOutcomes : List (String × FetchOutcome) :=
  [("indeed", .timedOut 900), ("linkedin", .rateLimited 40)]

/-! ## Idempotence of the deduplicator

The dedup groups are the connected components of the duplicate relation over
the input, so distinct groups are separated: no member of one is a duplicate
of a member of the other. Representatives of distinct groups are therefore
never duplicates of each other, and a second run leaves them untouched. -/

/-- Two groups are separated when no member of one duplicates a member of the
other. -/
def SepRel (g h : List Posting) : Prop :=
  ∀ x ∈ g, ∀ y ∈ h, isDup x y = false

theorem locMatch_comm (a b : String) : locMatch a b = locMatch b a :=
  Bool.or_comm _ _

theorem isDup_comm (a b : Posting) : isDup a b = isDup b a := by
  have ht : (matchKey a.title = matchKey b.title) ↔
      (matchKey b.title = matchKey a.title) := eq_comm
  have hc : (matchKey a.company = matchKey b.company) ↔
      (matchKey b.company = matchKey a.company) := eq_comm
  have hd : (a.postedAt - b.postedAt).natAbs = (b.postedAt - a.postedAt).natAbs := by
    omega
  unfold isDup
  rw [decide_eq_decide.mpr ht, decide_eq_decide.mpr hc, hd,
    locMatch_comm a.location b.location]

theorem sepRel_symm : Symmetric SepRel := by
  intro g h hgh x hx y hy
  rw [isDup_comm]
  exact hgh y hy x hx

theorem sep_addPosting {gs : List (List Posting)}
    (hsep : List.Pairwise SepRel gs) (p : Posting) :
    List.Pairwise SepRel (addPosting gs p) := by
  unfold addPosting
  rw [List.pairwise_append]
  refine ⟨List.Pairwise.sublist (List.filter_sublist gs) hsep,
    List.pairwise_singleton _ _, ?_⟩
  intro g hg m hm x hx y hy
  rw [List.mem_singleton] at hm
  subst hm
  have hgmem : g ∈ gs := (List.mem_filter.mp hg).1
  have hgany : g.any (fun q => isDup p q) = false := by
    simpa using (List.mem_filter.mp hg).2
  rcases List.mem_append.mp hy with hy1 | hy2
  · rcases List.mem_flatten.mp hy1 with ⟨t, ht, hyt⟩
    have htmem : t ∈ gs := (List.mem_filter.mp ht).1
    have htpred : (t.any (fun q => isDup p q)) = true := (List.mem_filter.mp ht).2
    have hne : g ≠ t := by
      intro hEq
      rw [hEq] at hgany
      rw [hgany] at htpred
      exact Bool.false_ne_true htpred
    exact List.Pairwise.forall sepRel_symm hsep hgmem htmem hne x hx y hyt
  · rw [List.mem_singleton] at hy2
    subst hy2
    rw [isDup_comm]
    have := List.any_eq_false.mp hgany x hx
    simpa using this

theorem sep_foldl (ps : List Posting) (gs : List (List Posting))
    (h : List.Pairwise SepRel gs) :
    List.Pairwise SepRel (ps.foldl addPosting gs) := by
  induction ps generalizing gs with
  | nil => exact h
  | cons p rest ih => exact ih _ (sep_addPosting h p)

theorem sep_dedupGroups (ps : List Posting) :
    List.Pairwise SepRel (dedupGroups ps) :=
  sep_foldl ps [] List.Pairwise.nil

theorem foldl_best_mem (l : List Posting) (a : Posting) :
    l.foldl (fun best q => if betterRep q best then q else best) a ∈ a :: l := by
  induction l generalizing a with
  | nil => exact List.mem_singleton.mpr rfl
  | cons x xs ih =>
    rw [List.foldl_cons]
    by_cases hb : betterRep x a = true
    · rw [if_pos hb]
      exact List.mem_cons_of_mem a (ih x)
    · rw [if_neg hb]
      rcases List.mem_cons.mp (ih a) with h1 | h2
      · exact List.mem_cons.mpr (Or.inl h1)
      · exact List.mem_cons_of_mem a (List.mem_cons_of_mem x h2)

theorem chooseRep_mem {g : List Posting} {r : Posting}
    (h : chooseRep g = some r) : r ∈ g := by
  match g with
  | [] => exact absurd h (by simp [chooseRep])
  | p :: rest =>
    have hr : r = rest.foldl (fun best q => if betterRep q best then q else best) p := by
      simpa [chooseRep] using h.symm
    rw [hr]
    exact foldl_best_mem rest p

theorem reps_pairwise (gs : List (List Posting))
    (h : List.Pairwise SepRel gs) :
    List.Pairwise (fun a b => isDup a b = false) (gs.filterMap chooseRep) := by
  rw [List.pairwise_filterMap]
  refine h.imp ?_
  intro g g' hsep r hr r' hr'
  exact hsep r (chooseRep_mem hr) r' (chooseRep_mem hr')

theorem dedupe_nondup_pairwise (ps : List Posting) :
    List.Pairwise (fun a b => isDup a b = false) (dedupe ps) :=
  reps_pairwise _ (sep_dedupGroups ps)

theorem foldl_addPosting_of_nondup (l : List Posting) (gs : List (List Posting))
    (hcross : ∀ p ∈ l, ∀ g ∈ gs, ∀ q ∈ g, isDup p q = false)
    (hpair : List.Pairwise (fun a b => isDup a b = false) l) :
    l.foldl addPosting gs = gs ++ l.map (fun p => [p]) := by
  induction l generalizing gs with
  | nil => simp
  | cons p rest ih =>
    have htouch : ∀ g ∈ gs, g.any (fun q => isDup p q) = false := by
      intro g hg
      rw [List.any_eq_false]
      intro q hq
      simp [hcross p (List.mem_cons_self p rest) g hg q hq]
    have hstep : addPosting gs p = gs ++ [[p]] := by
      unfold addPosting
      rw [List.filter_eq_self.mpr (fun g hg => by rw [htouch g hg]; rfl),
        List.filter_eq_nil_iff.mpr (fun g hg => by rw [htouch g hg]; simp)]
      simp
    rw [List.foldl_cons, hstep]
    have hcross' : ∀ p' ∈ rest, ∀ g ∈ gs ++ [[p]], ∀ q ∈ g, isDup p' q = false := by
      intro p' hp' g hg q hq
      rcases List.mem_append.mp hg with h1 | h2
      · exact hcross p' (List.mem_cons_of_mem p hp') g h1 q hq
      · rw [List.mem_singleton] at h2
        subst h2
        rw [List.mem_singleton] at hq
        subst hq
        rw [isDup_comm]
        exact List.rel_of_pairwise_cons hpair hp'
    rw [ih (gs ++ [[p]]) hcross' (List.Pairwise.of_cons hpair)]
    simp

theorem dedupGroups_dedupe (ps : List Posting) :
    dedupGroups (dedupe ps) = (dedupe ps).map (fun p => [p]) := by
  unfold dedupGroups
  simpa using foldl_addPosting_of_nondup (dedupe ps) [] (by simp)
    (dedupe_nondup_pairwise ps)

theorem dedupe_idempotent (ps : List Posting) :
    dedupe (dedupe ps) = dedupe ps := by
  have h1 : dedupe (dedupe ps) = (dedupGroups (dedupe ps)).filterMap chooseRep := rfl
  rw [h1, dedupGroups_dedupe, List.filterMap_map]
  have h2 : (chooseRep ∘ fun p => [p]) = fun p : Posting => some p := by
    funext p
    rfl
  rw [h2, List.filterMap_some]

/-! ## Route-handler evaluation lemmas -/

theorem Json.isNull_iff (j : Json) : j.isNull = true ↔ j = Json.null := by
  cases j <;> simp [Json.isNull]

theorem locSpecBad_locInvalid {l : Option Json} (h : locSpecBad l = true) :
    locInvalid l = true := by
  match l with
  | none => rfl
  | some (.str s) =>
    have hs : s.isEmpty = true := h
    simp [locInvalid, jsTruthy, (String.isEmpty_iff s).mp hs]
  | some .null => rfl
  | some (.bool b) => exact absurd h (by simp [locSpecBad])
  | some (.num n) => exact absurd h (by simp [locSpecBad])
  | some (.arr xs) => exact absurd h (by simp [locSpecBad])
  | some (.obj fs) => exact absurd h (by simp [locSpecBad])

theorem runPOST_kwInvalid (pipeline : Json → Json → Except String α) (body : Json)
    (hnn : body ≠ Json.null)
    (hk : kwInvalid (fieldOpt body "keywords") = true) :
    runPOST pipeline (.ok body) = (.badRequest kwErrorText, none) := by
  cases body <;> first
    | exact absurd rfl hnn
    | simp [runPOST, hk]

theorem runPOST_locInvalid (pipeline : Json → Json → Except String α) (body : Json)
    (hnn : body ≠ Json.null)
    (hk : kwInvalid (fieldOpt body "keywords") = false)
    (hl : locInvalid (fieldOpt body "location") = true) :
    runPOST pipeline (.ok body) = (.badRequest locErrorText, none) := by
  cases body <;> first
    | exact absurd rfl hnn
    | simp [runPOST, hk, hl]

theorem runPOST_valid_ok (pipeline : Json → Json → Except String α) (body : Json)
    (hnn : body ≠ Json.null)
    (hk : kwInvalid (fieldOpt body "keywords") = false)
    (hl : locInvalid (fieldOpt body "location") = false)
    (m : α) (hp : pipeline (kwArg body) (locArg body) = .ok m) :
    runPOST pipeline (.ok body) = (.ok m, some (kwArg body, locArg body)) := by
  cases body <;> first
    | exact absurd rfl hnn
    | (simp [runPOST, kwArg, locArg, hk, hl] at hp ⊢; simp [hp])

theorem runPOST_valid_error (pipeline : Json → Json → Except String α) (body : Json)
    (hnn : body ≠ Json.null)
    (hk : kwInvalid (fieldOpt body "keywords") = false)
    (hl : locInvalid (fieldOpt body "location") = false)
    (e : String) (hp : pipeline (kwArg body) (locArg body) = .error e) :
    runPOST pipeline (.ok body) =
      (.serverError apiErrorText e, some (kwArg body, locArg body)) := by
  cases body <;> first
    | exact absurd rfl hnn
    | (simp [runPOST, kwArg, locArg, hk, hl] at hp ⊢; simp [hp])

/-- The analysis of a run with no successful source: no postings, null
statistics, empty top lists, health for every source. -/
theorem analyzeJobMarket_all_failed (now : Int)
    (outcomes : List (String × FetchOutcome))
    (hfail : ∀ so ∈ outcomes, so.2.isFailure = true) :
    analyzeJobMarket now outcomes =
      { totalPostings := 0
        uniquePostings := 0
        salaryStats := none
        topCompanies := []
        topSkills := []
        sourceHealth := outcomes.map (fun so => (so.1, outcomeHealth so.2)) } := by
  have hraws : (outcomes.map (fun so => successRaws so.2)).flatten = [] := by
    rw [List.flatten_eq_nil_iff]
    intro l hl
    rcases List.mem_map.mp hl with ⟨so, hso, rfl⟩
    have hf := hfail so hso
    cases hso2 : so.2 with
    | succeeded rs ms =>
      rw [hso2] at hf
      exact absurd hf (by simp [FetchOutcome.isFailure])
    | timedOut ms => simp [hso2, successRaws]
    | unavailable ms => simp [hso2, successRaws]
    | rateLimited ms => simp [hso2, successRaws]
    | unknownFailure ms => simp [hso2, successRaws]
  unfold analyzeJobMarket
  rw [hraws]
  rfl

/-! ## Claim theorems -/

/-- C6: the dedupe operation is idempotent: for every sequence of postings,
deduplicating a second time changes nothing. -/
theorem c6_dedupe_idempotent (ps : List Posting) :
    dedupe (dedupe ps) = dedupe ps :=
  dedupe_idempotent ps

/-- C8: the composed pipeline is deterministic given fixed raw outcomes and
a fixed captured timestamp: the wall clock is read only at the capture
instant, so two runs whose clocks agree there produce identical analyses. -/
theorem c8_pipeline_deterministic (clock1 clock2 : Nat → Int)
    (outcomes : List (String × FetchOutcome)) (h : clock1 0 = clock2 0) :
    runWithClock clock1 outcomes = runWithClock clock2 outcomes := by
  unfold runWithClock
  rw [h]

/-- Witness for C8 at two concrete clocks that agree only at the capture
instant. -/
theorem c8_pipeline_deterministic_witness :
    runWithClock (fun _ => 7) downOutcomes =
      runWithClock (fun n => 7 + (n : Int)) downOutcomes :=
  c8_pipeline_deterministic (fun _ => 7) (fun n => 7 + (n : Int)) downOutcomes
    (by simp)

/-- C2: a request whose body is spec-malformed (keywords missing, empty or
non-array, or location missing or empty) is answered 400 before the pipeline
runs: no scraper is invoked, witnessed by the `none` invocation trace. -/
theorem c2_validation_short_circuits (pipeline : Json → Json → Except String α)
    (body : Json) (hnn : body ≠ Json.null) (hmal : specMalformed body = true) :
    (runPOST pipeline (.ok body)).1.status = 400 ∧
    (runPOST pipeline (.ok body)).2 = none := by
  by_cases hk : kwInvalid (fieldOpt body "keywords") = true
  · rw [runPOST_kwInvalid pipeline body hnn hk]
    exact ⟨rfl, rfl⟩
  · have hk' : kwInvalid (fieldOpt body "keywords") = false := by
      simpa using hk
    have hlspec : locSpecBad (fieldOpt body "location") = true := by
      unfold specMalformed at hmal
      rw [hk'] at hmal
      simpa using hmal
    rw [runPOST_locInvalid pipeline body hnn hk' (locSpecBad_locInvalid hlspec)]
    exact ⟨rfl, rfl⟩

/-- Witness for C2 at the body `{}`. -/
theorem c2_validation_short_circuits_witness :
    (runPOST okPipeline (.ok bodyEmptyObj)).1.status = 400 ∧
    (runPOST okPipeline (.ok bodyEmptyObj)).2 = none :=
  c2_validation_short_circuits okPipeline bodyEmptyObj
    (fun h => Json.noConfusion h) rfl

/-- C9: when both fields fail their checks, the keywords check fires first:
the 400 response carries the keywords message, never the location message. -/
theorem c9_keywords_message_first (pipeline : Json → Json → Except String α)
    (body : Json) (hnn : body ≠ Json.null)
    (hk : kwInvalid (fieldOpt body "keywords") = true)
    (_hl : locInvalid (fieldOpt body "location") = true) :
    (runPOST pipeline (.ok body)).1 = ApiResponse.badRequest kwErrorText ∧
    (runPOST pipeline (.ok body)).1 ≠ ApiResponse.badRequest locErrorText := by
  rw [runPOST_kwInvalid pipeline body hnn hk]
  refine ⟨rfl, fun hcontra => ?_⟩
  have heq : kwErrorText = locErrorText := by
    injection hcontra
  exact absurd heq (by decide)

/-- Witness for C9 at the body `{}`, where both fields are absent. -/
theorem c9_keywords_message_first_witness :
    (runPOST okPipeline (.ok bodyEmptyObj)).1 = ApiResponse.badRequest kwErrorText ∧
    (runPOST okPipeline (.ok bodyEmptyObj)).1 ≠ ApiResponse.badRequest locErrorText :=
  c9_keywords_message_first okPipeline bodyEmptyObj
    (fun h => Json.noConfusion h) rfl rfl

/-- C1 fails as stated: the claim extends the 400 guarantee to a body that is
not parseable as JSON at all, but such a request is answered by the catch-all
500 response, not 400. -/
theorem c1_counterexample :
    (runPOST okPipeline (Except.error "SyntaxError: Unexpected token")).1 =
      ApiResponse.serverError apiErrorText "SyntaxError: Unexpected token" ∧
    (runPOST okPipeline (Except.error "SyntaxError: Unexpected token")).1.status ≠ 400 :=
  ⟨rfl, by decide⟩

/-- C1 (amended): a body that parses to a JSON value other than null and is
spec-malformed receives HTTP 400 with an `error` string (the keywords message
when the keywords check fails, otherwise the location message); a body that
is not parseable as JSON instead receives the catch-all 500 response. -/
theorem c1_amended_validation_400 (pipeline : Json → Json → Except String α)
    (body : Json) (msg : String)
    (hnn : body ≠ Json.null) (hmal : specMalformed body = true) :
    (runPOST pipeline (.ok body)).1 =
      ApiResponse.badRequest
        (if kwInvalid (fieldOpt body "keywords") = true then kwErrorText
         else locErrorText) ∧
    (runPOST pipeline (.ok body)).1.status = 400 ∧
    (runPOST pipeline (.error msg)).1.status = 500 := by
  by_cases hk : kwInvalid (fieldOpt body "keywords") = true
  · rw [runPOST_kwInvalid pipeline body hnn hk, if_pos hk]
    exact ⟨rfl, rfl, rfl⟩
  · have hk' : kwInvalid (fieldOpt body "keywords") = false := by
      simpa using hk
    have hlspec : locSpecBad (fieldOpt body "location") = true := by
      unfold specMalformed at hmal
      rw [hk'] at hmal
      simpa using hmal
    rw [runPOST_locInvalid pipeline body hnn hk' (locSpecBad_locInvalid hlspec),
      if_neg hk]
    exact ⟨rfl, rfl, rfl⟩

/-- Witness for the amended C1 at the body `{"location": ""}`. -/
theorem c1_amended_validation_400_witness :
    (runPOST okPipeline (.ok (Json.obj [("location", Json.str "")]))).1 =
      ApiResponse.badRequest
        (if kwInvalid (fieldOpt (Json.obj [("location", Json.str "")]) "keywords") = true
         then kwErrorText else locErrorText) ∧
    (runPOST okPipeline (.ok (Json.obj [("location", Json.str "")]))).1.status = 400 ∧
    (runPOST okPipeline (Except.error "bad body")).1.status = 500 :=
  c1_amended_validation_400 okPipeline (Json.obj [("location", Json.str "")])
    "bad body" (fun h => Json.noConfusion h) rfl

/-- C4: a request that passes validation and whose pipeline run completes
without an exception is answered with exactly the success envelope
`{ success: true, data }` carrying the produced analysis, at HTTP 200. -/
theorem c4_success_envelope (pipeline : Json → Json → Except String α)
    (body : Json) (m : α) (hnn : body ≠ Json.null)
    (hk : kwInvalid (fieldOpt body "keywords") = false)
    (hl : locInvalid (fieldOpt body "location") = false)
    (hp : pipeline (kwArg body) (locArg body) = .ok m) :
    (runPOST pipeline (.ok body)).1 = ApiResponse.ok m ∧
    (runPOST pipeline (.ok body)).1.status = 200 := by
  rw [runPOST_valid_ok pipeline body hnn hk hl m hp]
  exact ⟨rfl, rfl⟩

/-- Witness for C4 at a concrete valid body and the stub pipeline. -/
theorem c4_success_envelope_witness :
    (runPOST okPipeline (.ok bodyValid)).1 = ApiResponse.ok emptyAnalysis ∧
    (runPOST okPipeline (.ok bodyValid)).1.status = 200 :=
  c4_success_envelope okPipeline bodyValid emptyAnalysis
    (fun h => Json.noConfusion h) rfl rfl rfl

/-- C5: a valid request in which every source fails is still answered HTTP
200 with a well-formed analysis: zero postings, null statistics, empty top
lists, and one fully populated health entry per source. -/
theorem c5_all_sources_down (now : Int) (outcomes : List (String × FetchOutcome))
    (body : Json) (hnn : body ≠ Json.null)
    (hk : kwInvalid (fieldOpt body "keywords") = false)
    (hl : locInvalid (fieldOpt body "location") = false)
    (hfail : ∀ so ∈ outcomes, so.2.isFailure = true) :
    (runPOST (fun _ _ => Except.ok (analyzeJobMarket now outcomes)) (.ok body)).1 =
      ApiResponse.ok (analyzeJobMarket now outcomes) ∧
    (runPOST (fun _ _ => Except.ok (analyzeJobMarket now outcomes))
      (.ok body)).1.status = 200 ∧
    analyzeJobMarket now outcomes =
      { totalPostings := 0
        uniquePostings := 0
        salaryStats := none
        topCompanies := []
        topSkills := []
        sourceHealth := outcomes.map (fun so => (so.1, outcomeHealth so.2)) } := by
  rw [runPOST_valid_ok (fun _ _ => Except.ok (analyzeJobMarket now outcomes))
    body hnn hk hl (analyzeJobMarket now outcomes) rfl]
  exact ⟨rfl, rfl, analyzeJobMarket_all_failed now outcomes hfail⟩

/-- Witness for C5 at a concrete valid body and a run where both sources
fail. -/
theorem c5_all_sources_down_witness :
    (runPOST (fun _ _ => Except.ok (analyzeJobMarket 0 downOutcomes)) (.ok bodyValid)).1 =
      ApiResponse.ok (analyzeJobMarket 0 downOutcomes) ∧
    (runPOST (fun _ _ => Except.ok (analyzeJobMarket 0 downOutcomes))
      (.ok bodyValid)).1.status = 200 ∧
    analyzeJobMarket 0 downOutcomes =
      { totalPostings := 0
        uniquePostings := 0
        salaryStats := none
        topCompanies := []
        topSkills := []
        sourceHealth := downOutcomes.map (fun so => (so.1, outcomeHealth so.2)) } :=
  c5_all_sources_down 0 downOutcomes bodyValid
    (fun h => Json.noConfusion h) rfl rfl (by decide)

/-- C10: validation inspects only the outer shape of the fields: any
non-empty keywords array, whatever its elements, together with any truthy
location passes validation and the pipeline is invoked with exactly those
two values, unchanged. -/
theorem c10_outer_shape_only (pipeline : Json → Json → Except String α)
    (body : Json) (xs : List Json) (loc : Json) (hnn : body ≠ Json.null)
    (hkw : fieldOpt body "keywords" = some (Json.arr xs)) (hx : xs ≠ [])
    (hloc : fieldOpt body "location" = some loc) (htr : jsTruthy loc = true) :
    (runPOST pipeline (.ok body)).2 = some (Json.arr xs, loc) := by
  have hk : kwInvalid (fieldOpt body "keywords") = false := by
    rw [hkw]
    cases xs with
    | nil => exact absurd rfl hx
    | cons x xt => rfl
  have hl : locInvalid (fieldOpt body "location") = false := by
    rw [hloc]
    simp [locInvalid, htr]
  cases hp : pipeline (kwArg body) (locArg body) with
  | ok m =>
    rw [runPOST_valid_ok pipeline body hnn hk hl m hp]
    simp [kwArg, locArg, hkw, hloc]
  | error e =>
    rw [runPOST_valid_error pipeline body hnn hk hl e hp]
    simp [kwArg, locArg, hkw, hloc]

/-- Witness for C10 at the body whose keywords array holds one empty
string. -/
theorem c10_outer_shape_only_witness :
    (runPOST okPipeline (.ok bodyEdgeKw)).2 =
      some (Json.arr [Json.str ""], Json.str "NYC") :=
  c10_outer_shape_only okPipeline bodyEdgeKw [Json.str ""] (Json.str "NYC")
    (fun h => Json.noConfusion h) rfl (by simp) rfl rfl

/-- C7: every posting normalization accepts that carries both salary bounds
satisfies `salaryMin ≤ salaryMax`; raw input violating this (`min > max`) is
kept with the two bounds swapped rather than rejected. -/
theorem c7_normalize_salary_order (now : Int) (raw : RawPosting) (p : Posting)
    (h : normalize now raw = Except.ok p) :
    (∀ x y, p.salaryMin = some x → p.salaryMax = some y → x ≤ y) ∧
    (∀ x y, raw.salaryMin = some x → raw.salaryMax = some y → y < x →
      p.salaryMin = some y ∧ p.salaryMax = some x) := by
  simp only [normalize] at h
  split at h
  · exact absurd h (by simp)
  · rcases hmn : raw.salaryMin with _ | a <;>
      rcases hmx : raw.salaryMax with _ | b <;>
      simp only [hmn, hmx] at h
    · injection h with hp
      subst hp
      refine ⟨fun x y h1 h2 => ?_, fun x y hx hy hyx => ?_⟩
      · exact absurd h1 (by simp)
      · exact absurd hx (by simp)
    · injection h with hp
      subst hp
      refine ⟨fun x y h1 h2 => ?_, fun x y hx hy hyx => ?_⟩
      · exact absurd h1 (by simp)
      · exact absurd hx (by simp)
    · injection h with hp
      subst hp
      refine ⟨fun x y h1 h2 => ?_, fun x y hx hy hyx => ?_⟩
      · exact absurd h2 (by simp)
      · exact absurd hy (by simp)
    · by_cases hba : b < a
      · rw [if_pos hba] at h
        injection h with hp
        subst hp
        refine ⟨fun x y h1 h2 => ?_, fun x y hx hy hyx => ?_⟩
        · have hx' : x = b := by
            simpa using h1.symm
          have hy' : y = a := by
            simpa using h2.symm
          subst hx'
          subst hy'
          exact le_of_lt hba
        · have hx' : x = a := by
            simpa using hx.symm
          have hy' : y = b := by
            simpa using hy.symm
          subst hx'
          subst hy'
          exact ⟨by simp, by simp⟩
      · rw [if_neg hba] at h
        injection h with hp
        subst hp
        refine ⟨fun x y h1 h2 => ?_, fun x y hx hy hyx => ?_⟩
        · have hx' : x = a := by
            simpa using h1.symm
          have hy' : y = b := by
            simpa using h2.symm
          subst hx'
          subst hy'
          exact le_of_not_lt hba
        · have hx' : x = a := by
            simpa using hx.symm
          have hy' : y = b := by
            simpa using hy.symm
          subst hx'
          subst hy'
          exact absurd hyx (by omega)

/-- Witness for C7 at a concrete raw posting with reversed salary bounds. -/
theorem c7_normalize_salary_order_witness :
    (∀ x y, postSwapSample.salaryMin = some x →
      postSwapSample.salaryMax = some y → x ≤ y) ∧
    (∀ x y, rawSwapSample.salaryMin = some x →
      rawSwapSample.salaryMax = some y → y < x →
      postSwapSample.salaryMin = some y ∧ postSwapSample.salaryMax = some x) :=
  c7_normalize_salary_order 100 rawSwapSample postSwapSample rfl

/-- C3 fails as stated: a body that is not parseable as JSON is answered 500
although validation never passed and the pipeline (a stub that never raises)
threw no exception; the 500 is not reserved to pipeline exceptions. -/
theorem c3_counterexample :
    (runPOST okPipeline (Except.error "Unexpected end of JSON input")).1 =
      ApiResponse.serverError apiErrorText "Unexpected end of JSON input" :=
  rfl

/-- C3 (amended): the handler answers 500 with both an `error` and a
`message` string exactly when an exception arises inside the try block: the
body fails to parse as JSON, the body is JSON null (whose destructuring
throws), or the pipeline itself rejects after validation has passed.
Validation failures and completed runs never produce a 500. -/
theorem c3_amended_500_iff (pipeline : Json → Json → Except String α)
    (rawBody : Except String Json) :
    (∃ e m, (runPOST pipeline rawBody).1 = ApiResponse.serverError e m) ↔
      ((∃ msg, rawBody = Except.error msg) ∨ rawBody = Except.ok Json.null ∨
        (∃ body, rawBody = Except.ok body ∧ body ≠ Json.null ∧
          kwInvalid (fieldOpt body "keywords") = false ∧
          locInvalid (fieldOpt body "location") = false ∧
          ∃ e, pipeline (kwArg body) (locArg body) = Except.error e)) := by
  cases rawBody with
  | error msg =>
    constructor
    · intro _
      exact Or.inl ⟨msg, rfl⟩
    · intro _
      exact ⟨apiErrorText, msg, rfl⟩
  | ok body =>
    cases hnl : body.isNull with
    | true =>
      have hbn : body = Json.null := (Json.isNull_iff body).mp hnl
      subst hbn
      constructor
      · intro _
        exact Or.inr (Or.inl rfl)
      · intro _
        exact ⟨apiErrorText, destructureNullMsg, rfl⟩
    | false =>
      have hnn : body ≠ Json.null := by
        intro hcontra
        rw [hcontra] at hnl
        exact Bool.noConfusion hnl
      by_cases hk : kwInvalid (fieldOpt body "keywords") = true
      · rw [runPOST_kwInvalid pipeline body hnn hk]
        constructor
        · rintro ⟨e, m, hcontra⟩
          exact absurd hcontra (by simp)
        · rintro (⟨msg, hcontra⟩ | hcontra | ⟨body', hb, hnn2, hk2, hrest⟩)
          · exact absurd hcontra (by simp)
          · injection hcontra with h'
            exact absurd h' hnn
          · injection hb with h'
            subst h'
            rw [hk2] at hk
            exact absurd hk (by simp)
      · have hk' : kwInvalid (fieldOpt body "keywords") = false := by
          simpa using hk
        by_cases hl : locInvalid (fieldOpt body "location") = true
        · rw [runPOST_locInvalid pipeline body hnn hk' hl]
          constructor
          · rintro ⟨e, m, hcontra⟩
            exact absurd hcontra (by simp)
          · rintro (⟨msg, hcontra⟩ | hcontra | ⟨body', hb, hnn2, hk2, hl2, hrest⟩)
            · exact absurd hcontra (by simp)
            · injection hcontra with h'
              exact absurd h' hnn
            · injection hb with h'
              subst h'
              rw [hl2] at hl
              exact absurd hl (by simp)
        · have hl' : locInvalid (fieldOpt body "location") = false := by
            simpa using hl
          cases hp : pipeline (kwArg body) (locArg body) with
          | ok m =>
            rw [runPOST_valid_ok pipeline body hnn hk' hl' m hp]
            constructor
            · rintro ⟨e, m2, hcontra⟩
              exact absurd hcontra (by simp)
            · rintro (⟨msg, hcontra⟩ | hcontra | ⟨body', hb, hnn2, hk2, hl2, e, hp2⟩)
              · exact absurd hcontra (by simp)
              · injection hcontra with h'
                exact absurd h' hnn
              · injection hb with h'
                subst h'
                rw [hp] at hp2
                exact absurd hp2 (by simp)
          | error e =>
            rw [runPOST_valid_error pipeline body hnn hk' hl' e hp]
            constructor
            · intro _
              exact Or.inr (Or.inr ⟨body, rfl, hnn, hk', hl', e, hp⟩)
            · intro _
              exact ⟨apiErrorText, e, rfl⟩

end JobSearch
